import Mathlib

/-!
Verification of the `input_py` single-line input library.

The embedding models `src/lib.rs` faithfully. Rust `String`s are modelled
as `List Char` (called `Str` below); the injectable `InputReader` /
`OutputWriter` capabilities of a single call to `read_input_with_io` are
modelled by an environment `IOEnv` recording the outcome each capability
would produce, and a trace `IOTrace` recording the observable interactions
(successful writes, flush count, whether a read was attempted). The
stand-in for `std::io::Error` payloads is `Nat`.
-/

/-- Strings of the Rust source, modelled as lists of characters. -/
abbrev Str := List Char

/-- Rust `char::is_whitespace`: the Unicode `White_Space` property.
Code points: U+0009–U+000D, U+0020, U+0085, U+00A0, U+1680,
U+2000–U+200A, U+2028, U+2029, U+202F, U+205F, U+3000. -/
def rustIsWhitespace (c : Char) : Bool :=
  let n := c.toNat
  (0x09 ≤ n && n ≤ 0x0D) || n == 0x20 || n == 0x85 || n == 0xA0 ||
  n == 0x1680 || (0x2000 ≤ n && n ≤ 0x200A) || n == 0x2028 ||
  n == 0x2029 || n == 0x202F || n == 0x205F || n == 0x3000

/-- Rust `str::trim`: remove leading and trailing Unicode whitespace. -/
def rustTrim (s : Str) : Str :=
  (((s.dropWhile rustIsWhitespace).reverse.dropWhile rustIsWhitespace)).reverse

/-- The preserve-mode branch of `process_input` in `src/lib.rs`:
`if input.ends_with('\n') { input.pop(); if input.ends_with('\r') { input.pop(); } }`. -/
def stripLineTerminator (s : Str) : Str :=
  if s.getLast? = some '\n' then
    let s1 := s.dropLast
    if s1.getLast? = some '\r' then s1.dropLast else s1
  else s

/-- `process_input` from `src/lib.rs`: pure post-processing of the raw line. -/
def process_input (input : Str) (default_value : Option Str)
    (trim_whitespace : Bool) : Str :=
  if trim_whitespace then
    let trimmed := rustTrim input
    if trimmed.isEmpty then
      match default_value with
      | some d => d
      | none => trimmed
    else trimmed
  else
    let stripped := stripLineTerminator input
    if stripped.isEmpty then
      match default_value with
      | some d => d
      | none => stripped
    else stripped

/-- `config::format::PROMPT_SUFFIX` from `src/config.rs`: `":"`. -/
def PROMPT_SUFFIX : Str := [':']

/-- Classified input errors from `src/lib.rs` (`InputError`); the wrapped
`std::io::Error` is modelled as a `Nat` payload. -/
inductive InputError where
  | WriteError (e : Nat)
  | FlushError (e : Nat)
  | ReadError (e : Nat)
  deriving DecidableEq, Repr

/-- Outcomes the injected reader/writer would produce during one call:
the result of `writer.write_str`, of `writer.flush`, and of
`reader.read_line` (on success, the chunk appended to the buffer;
an empty chunk is end-of-stream, i.e. zero bytes read). -/
structure IOEnv where
  writeResult : Except Nat Unit
  flushResult : Except Nat Unit
  readResult : Except Nat Str
  deriving Repr

/-- Observable interactions of one call: texts successfully written to the
sink in order, number of successful flushes, and whether a read of the
source was attempted. -/
structure IOTrace where
  writes : List Str
  flushes : Nat
  readAttempted : Bool
  deriving DecidableEq, Repr

/-- `read_input_with_io` from `src/lib.rs`: prompt rendering and emission,
line acquisition, then `process_input`; paired with the interaction trace. -/
def read_input_with_io (prompt : Str) (default_value : Option Str)
    (trim_whitespace show_prompt : Bool) (env : IOEnv) :
    Except InputError Str × IOTrace :=
  if show_prompt && !prompt.isEmpty then
    let prompt_text :=
      match default_value with
      | some d =>
          if !d.isEmpty then
            prompt ++ [' ', '['] ++ d ++ [']'] ++ PROMPT_SUFFIX
          else
            prompt ++ PROMPT_SUFFIX
      | none => prompt ++ PROMPT_SUFFIX
    match env.writeResult with
    | Except.error e => (Except.error (InputError.WriteError e), ⟨[], 0, false⟩)
    | Except.ok _ =>
        match env.flushResult with
        | Except.error e =>
            (Except.error (InputError.FlushError e), ⟨[prompt_text], 0, false⟩)
        | Except.ok _ =>
            match env.readResult with
            | Except.error e =>
                (Except.error (InputError.ReadError e), ⟨[prompt_text], 1, true⟩)
            | Except.ok line =>
                (Except.ok (process_input line default_value trim_whitespace),
                  ⟨[prompt_text], 1, true⟩)
  else
    match env.readResult with
    | Except.error e => (Except.error (InputError.ReadError e), ⟨[], 0, true⟩)
    | Except.ok line =>
        (Except.ok (process_input line default_value trim_whitespace),
          ⟨[], 0, true⟩)

/-- The `Input` builder from `src/lib.rs`. -/
structure Input where
  prompt : Str
  default_value : Option Str
  trim_whitespace : Bool
  show_prompt : Bool
  deriving DecidableEq, Repr

/-- `Input::new`: defaults are no default value, trimming on, prompt shown
iff the prompt is non-empty. -/
def Input.new (prompt : Str) : Input :=
  ⟨prompt, none, true, !prompt.isEmpty⟩

/-- `Input::default` setter. -/
def Input.default (i : Input) (value : Str) : Input :=
  { i with default_value := some value }

/-- `Input::trim` setter. -/
def Input.trim (i : Input) (t : Bool) : Input :=
  { i with trim_whitespace := t }

/-- `Input::show_prompt` setter (named with a prime to avoid clashing with
the field projection). -/
def Input.show_prompt' (i : Input) (show_p : Bool) : Input :=
  { i with show_prompt := show_p }

/-- `Input::read` (via `read_input_internal`), run against an environment. -/
def Input.read (i : Input) (env : IOEnv) : Except InputError Str × IOTrace :=
  read_input_with_io i.prompt i.default_value i.trim_whitespace i.show_prompt env

/-- `input` from `src/lib.rs`: `Input::new(comment).read()`. -/
def input (comment : Str) (env : IOEnv) : Except InputError Str × IOTrace :=
  (Input.new comment).read env

/-- `input_with_default` from `src/lib.rs`:
`Input::new(comment).default(default).read()`. -/
def input_with_default (comment default : Str) (env : IOEnv) :
    Except InputError Str × IOTrace :=
  ((Input.new comment).default default).read env

/-- `input_trim` from `src/lib.rs`:
`Input::new(comment).trim(trim_whitespace).read()`. -/
def input_trim (comment : Str) (trim_whitespace : Bool) (env : IOEnv) :
    Except InputError Str × IOTrace :=
  ((Input.new comment).trim trim_whitespace).read env

example : process_input ['t', 'e', 's', 't', '\r', '\n'] none false
    = ['t', 'e', 's', 't'] := by decide

example : process_input [' ', ' ', 'h', 'i', ' ', '\n'] none false
    = [' ', ' ', 'h', 'i', ' '] := by decide

example : process_input ['\t', ' ', 'h', 'i', ' ', '\n'] none true
    = ['h', 'i'] := by decide

example : process_input ['\n'] (some ['d']) true = ['d'] := by decide

example : process_input ['a', '\n', '\n'] none false = ['a', '\n'] := by decide

theorem stripLineTerminator_cases (s : Str) :
    (s.getLast? ≠ some '\n' ∧ stripLineTerminator s = s) ∨
    (∃ t, s = t ++ ['\n'] ∧ t.getLast? ≠ some '\r' ∧ stripLineTerminator s = t) ∨
    (∃ t, s = t ++ ['\r', '\n'] ∧ stripLineTerminator s = t) := by
  by_cases h : s.getLast? = some '\n'
  · obtain ⟨t, rfl⟩ := List.getLast?_eq_some_iff.mp h
    by_cases h2 : t.getLast? = some '\r'
    · obtain ⟨u, rfl⟩ := List.getLast?_eq_some_iff.mp h2
      refine Or.inr (Or.inr ⟨u, by simp, ?_⟩)
      simp [stripLineTerminator]
    · refine Or.inr (Or.inl ⟨t, rfl, h2, ?_⟩)
      simp [stripLineTerminator, h2]
  · exact Or.inl ⟨h, by simp [stripLineTerminator, h]⟩

theorem stripLineTerminator_noop (s : Str) (h : s.getLast? ≠ some '\n') :
    stripLineTerminator s = s := by
  simp [stripLineTerminator, h]

theorem stripLineTerminator_length_lt (s : Str) (h : s.getLast? = some '\n') :
    (stripLineTerminator s).length < s.length := by
  rcases stripLineTerminator_cases s with ⟨h1, _⟩ | ⟨t, rfl, _, e⟩ | ⟨t, rfl, e⟩
  · exact absurd h h1
  · rw [e]; simp
  · rw [e]; simp

theorem stripLineTerminator_nil_iff (s : Str) :
    stripLineTerminator s = [] ↔ s = [] ∨ s = ['\n'] ∨ s = ['\r', '\n'] := by
  rcases stripLineTerminator_cases s with ⟨h1, e⟩ | ⟨t, rfl, h1, e⟩ | ⟨t, rfl, e⟩
  · rw [e]
    constructor
    · rintro rfl; exact Or.inl rfl
    · rintro (rfl | rfl | rfl)
      · rfl
      · simp at h1
      · simp at h1
  · rw [e]
    constructor
    · rintro rfl; exact Or.inr (Or.inl rfl)
    · rintro (h2 | h2 | h2)
      · simp at h2
      · simpa using congrArg List.dropLast h2
      · have ht : t = ['\r'] := by simpa using congrArg List.dropLast h2
        subst ht; simp at h1
  · rw [e]
    constructor
    · rintro rfl; exact Or.inr (Or.inr rfl)
    · rintro (h2 | h2 | h2)
      · simp at h2
      · have := congrArg List.length h2; simp at this
      · have := congrArg List.length h2
        simpa using List.eq_nil_of_length_eq_zero (by simpa using this)

theorem process_trim_none (s : Str) : process_input s none true = rustTrim s := by
  by_cases h : (rustTrim s).isEmpty <;> simp [process_input, h]

theorem process_preserve_none (s : Str) :
    process_input s none false = stripLineTerminator s := by
  by_cases h : (stripLineTerminator s).isEmpty <;> simp [process_input, h]

theorem rustTrim_nil_iff (s : Str) :
    rustTrim s = [] ↔ ∀ c ∈ s, rustIsWhitespace c := by
  unfold rustTrim
  rw [List.reverse_eq_nil_iff, List.dropWhile_eq_nil_iff]
  constructor
  · intro h c hc
    rw [← List.takeWhile_append_dropWhile rustIsWhitespace s] at hc
    rcases List.mem_append.mp hc with h1 | h1
    · exact List.mem_takeWhile_imp h1
    · exact h c (List.mem_reverse.mpr h1)
  · intro h c hc
    exact h c ((List.dropWhile_sublist rustIsWhitespace).subset
      (List.mem_reverse.mp hc))

theorem rustTrim_concat (s : Str) (c : Char) (hc : rustIsWhitespace c) :
    rustTrim (s ++ [c]) = rustTrim s := by
  unfold rustTrim
  rw [List.dropWhile_append]
  by_cases h : (s.dropWhile rustIsWhitespace).isEmpty
  · have h0 : s.dropWhile rustIsWhitespace = [] := by simpa using h
    simp [h, h0, List.dropWhile_cons, hc]
  · simp only [h, if_false, List.reverse_append]
    simp [List.dropWhile_cons, hc]

/-- C5: In preserve mode, post-processing removes only a single trailing
line-terminator sequence — one trailing newline together with an
immediately preceding carriage return if present — never more than one
terminator, and no other leading, trailing, or interior whitespace;
`"test\r\n"` yields `"test"` and `"  hello  \n"` yields `"  hello  "`. -/
theorem preserve_strips_single_terminator (s t : Str) :
    process_input (t ++ ['\r', '\n']) none false = t ∧
    (t.getLast? ≠ some '\r' → process_input (t ++ ['\n']) none false = t) ∧
    (s.getLast? ≠ some '\n' → process_input s none false = s) ∧
    process_input ['t', 'e', 's', 't', '\r', '\n'] none false
      = ['t', 'e', 's', 't'] ∧
    process_input [' ', ' ', 'h', 'e', 'l', 'l', 'o', ' ', ' ', '\n'] none false
      = [' ', ' ', 'h', 'e', 'l', 'l', 'o', ' ', ' '] := by
  refine ⟨?_, ?_, ?_, by decide, by decide⟩
  · rw [process_preserve_none]
    have h : t ++ ['\r', '\n'] = (t ++ ['\r']) ++ ['\n'] := by simp
    rw [h]
    simp [stripLineTerminator]
  · intro h
    rw [process_preserve_none]
    simp [stripLineTerminator, h]
  · intro h
    rw [process_preserve_none, stripLineTerminator_noop s h]

/-- Witness for C5 at concrete inputs. -/
theorem preserve_strips_single_terminator_witness :
    process_input (['a', 'b'] ++ ['\n']) none false = ['a', 'b'] ∧
    process_input ['a', ' '] none false = ['a', ' '] :=
  ⟨(preserve_strips_single_terminator ['a', ' '] ['a', 'b']).2.1 (by decide),
   (preserve_strips_single_terminator ['a', ' '] ['a', 'b']).2.2.1 (by decide)⟩

/-- C7 fails as stated: preserve-mode post-processing is not idempotent —
on `"a\n\n"` one application yields `"a\n"`, a second yields `"a"`. -/
theorem preserve_idempotent_counterexample :
    process_input (process_input ['a', '\n', '\n'] none false) none false
      = ['a'] ∧
    process_input ['a', '\n', '\n'] none false = ['a', '\n'] ∧
    (['a'] : Str) ≠ ['a', '\n'] := by decide

/-- C7 (amended): applying preserve-mode post-processing (no default) twice
yields the same string as applying it once exactly when the once-processed
string does not still end in a newline; when it does (raw input ending in
two terminators), the second application strips one more terminator. -/
theorem preserve_idempotent_iff (s : Str) :
    process_input (process_input s none false) none false
        = process_input s none false ↔
    (process_input s none false).getLast? ≠ some '\n' := by
  rw [process_preserve_none, process_preserve_none]
  constructor
  · intro h hend
    have hl := stripLineTerminator_length_lt _ hend
    rw [h] at hl
    exact lt_irrefl _ hl
  · intro h
    exact stripLineTerminator_noop _ h

/-- Witness for C7's amended statement at a concrete input. -/
theorem preserve_idempotent_iff_witness :
    process_input (process_input ['a', '\n'] none false) none false
      = process_input ['a', '\n'] none false :=
  (preserve_idempotent_iff ['a', '\n']).mpr (by decide)

/-- C8: trim-mode post-processing subsumes preserve-mode post-processing:
trimming the preserve-mode result equals trimming the raw line directly. -/
theorem trim_subsumes_preserve (s : Str) :
    process_input (process_input s none false) none true
      = process_input s none true := by
  rw [process_preserve_none, process_trim_none, process_trim_none]
  rcases stripLineTerminator_cases s with ⟨_, e⟩ | ⟨t, rfl, _, e⟩ | ⟨t, rfl, e⟩
  · rw [e]
  · rw [e, rustTrim_concat t '\n' (by decide)]
  · rw [e]
    have h : t ++ ['\r', '\n'] = (t ++ ['\r']) ++ ['\n'] := by simp
    rw [h, rustTrim_concat _ '\n' (by decide), rustTrim_concat t '\r' (by decide)]

/-- C1 fails as stated: in preserve mode the result can equal the default
even when the raw input is none of `""`, `"\n"`, `"\r\n"` — the user can
simply type the default value itself (`"a\n"` with default `"a"`). -/
theorem preserve_default_iff_counterexample :
    process_input ['a', '\n'] (some ['a']) false = ['a'] ∧
    (['a', '\n'] : Str) ≠ [] ∧
    (['a', '\n'] : Str) ≠ ['\n'] ∧
    (['a', '\n'] : Str) ≠ ['\r', '\n'] := by decide

/-- C1 (amended): in preserve mode with default `d`, the result equals `d`
iff the raw input is `""`, `"\n"`, or `"\r\n"` (empty after terminator
strip) or the terminator-stripped input itself equals `d`; a non-empty
spaces-only input is returned verbatim even when a default is present. -/
theorem preserve_default_substitution (s d : Str) :
    (process_input s (some d) false = d ↔
      s = [] ∨ s = ['\n'] ∨ s = ['\r', '\n'] ∨ stripLineTerminator s = d) ∧
    (s ≠ [] → (∀ c ∈ s, c = ' ') → process_input s (some d) false = s) := by
  constructor
  · by_cases h : (stripLineTerminator s).isEmpty
    · have h0 : stripLineTerminator s = [] := by simpa using h
      have hres : process_input s (some d) false = d := by
        simp [process_input, h]
      rw [hres]
      constructor
      · intro _
        rcases (stripLineTerminator_nil_iff s).mp h0 with h1 | h1 | h1
        · exact Or.inl h1
        · exact Or.inr (Or.inl h1)
        · exact Or.inr (Or.inr (Or.inl h1))
      · intro _
        rfl
    · have h0 : stripLineTerminator s ≠ [] := by simpa using h
      have hres : process_input s (some d) false = stripLineTerminator s := by
        simp [process_input, h]
      rw [hres]
      constructor
      · intro hd
        exact Or.inr (Or.inr (Or.inr hd))
      · rintro (h1 | h1 | h1 | h1)
        · exact absurd ((stripLineTerminator_nil_iff s).mpr (Or.inl h1)) h0
        · exact absurd ((stripLineTerminator_nil_iff s).mpr (Or.inr (Or.inl h1))) h0
        · exact absurd ((stripLineTerminator_nil_iff s).mpr (Or.inr (Or.inr h1))) h0
        · exact h1
  · intro hne hsp
    have hlast : s.getLast? ≠ some '\n' := by
      intro hl
      have hm := List.mem_of_getLast?_eq_some hl
      have := hsp _ hm
      simp at this
    have hs : stripLineTerminator s = s := stripLineTerminator_noop s hlast
    have hIE : (stripLineTerminator s).isEmpty = false := by
      rw [hs]
      cases s with
      | nil => exact absurd rfl hne
      | cons a l => rfl
    simp [process_input, hIE, hs]
    intro h1
    exact absurd h1 hne

/-- Witness for C1's amended statement at concrete inputs. -/
theorem preserve_default_substitution_witness :
    process_input ['\n'] (some ['d']) false = ['d'] ∧
    process_input [' ', ' '] (some ['d']) false = [' ', ' '] :=
  ⟨(preserve_default_substitution ['\n'] ['d']).1.mpr (Or.inr (Or.inl rfl)),
   (preserve_default_substitution [' ', ' '] ['d']).2 (by decide) (by decide)⟩

/-- C2: in trim mode, whitespace-only or empty raw input yields the default
`d` when one is present (empty or not) and `""` when none is present;
any other raw input yields the trimmed input regardless of the default. -/
theorem trim_default_substitution (s d : Str) (dv : Option Str) :
    (s.all rustIsWhitespace = true →
      process_input s (some d) true = d ∧ process_input s none true = []) ∧
    (s.all rustIsWhitespace = false → process_input s dv true = rustTrim s) := by
  constructor
  · intro h
    have h0 : rustTrim s = [] :=
      (rustTrim_nil_iff s).mpr (by simpa [List.all_eq_true] using h)
    have hIE : (rustTrim s).isEmpty = true := by simp [h0]
    exact ⟨by simp [process_input, hIE], by simp [process_input, hIE, h0]⟩
  · intro h
    have h0 : rustTrim s ≠ [] := by
      intro hc
      have hall := (rustTrim_nil_iff s).mp hc
      have h2 := List.all_eq_true.mpr hall
      rw [h2] at h
      simp at h
    have hIE : (rustTrim s).isEmpty = false := by
      cases hrt : rustTrim s with
      | nil => exact absurd hrt h0
      | cons a l => rfl
    cases dv <;> simp [process_input, hIE]

/-- Witness for C2 at concrete inputs. -/
theorem trim_default_substitution_witness :
    process_input [' ', '\t'] (some ['d']) true = ['d'] ∧
    process_input ['x', ' '] none true = ['x'] := by
  constructor
  · exact ((trim_default_substitution [' ', '\t'] ['d'] none).1 (by decide)).1
  · have h := (trim_default_substitution ['x', ' '] ['d'] none).2 (by decide)
    rw [h]
    decide

/-- C6 fails as stated: trim mode also removes characters outside the set
{space, tab, newline, carriage return} — a leading form feed (U+000C) is
stripped because Rust trims by the Unicode White_Space property. -/
theorem trim_whitespace_set_counterexample :
    process_input ['\x0C', 'a'] none true = ['a'] ∧
    ¬('\x0C' = ' ' ∨ '\x0C' = '\t' ∨ '\x0C' = '\n' ∨ '\x0C' = '\r') := by
  decide

/-- C6 (amended): trim-mode post-processing strips exactly the leading and
trailing characters with the Unicode White_Space property (which contains
space, tab, newline, carriage return, and additionally vertical tab, form
feed, NEL, and the Unicode space separators): the raw line decomposes as
whitespace-run ++ result ++ whitespace-run, and the result neither starts
nor ends with such a character. -/
theorem trim_strips_exactly_unicode_whitespace (s : Str) :
    ∃ l r, s = l ++ process_input s none true ++ r ∧
      (∀ c ∈ l, rustIsWhitespace c = true) ∧
      (∀ c ∈ r, rustIsWhitespace c = true) ∧
      (∀ a, (process_input s none true).head? = some a →
        rustIsWhitespace a = false) ∧
      (∀ a, (process_input s none true).getLast? = some a →
        rustIsWhitespace a = false) := by
  rw [process_trim_none]
  have hback : s.dropWhile rustIsWhitespace =
      rustTrim s ++
        ((s.dropWhile rustIsWhitespace).reverse.takeWhile
          rustIsWhitespace).reverse := by
    conv_lhs => rw [← List.reverse_reverse (s.dropWhile rustIsWhitespace)]
    conv_lhs =>
      rw [← List.takeWhile_append_dropWhile rustIsWhitespace
        (s.dropWhile rustIsWhitespace).reverse]
    rw [List.reverse_append]
    rfl
  refine ⟨s.takeWhile rustIsWhitespace,
    ((s.dropWhile rustIsWhitespace).reverse.takeWhile rustIsWhitespace).reverse,
    ?_, ?_, ?_, ?_, ?_⟩
  · conv_lhs => rw [← List.takeWhile_append_dropWhile rustIsWhitespace s]
    conv_lhs => rw [hback]
    rw [List.append_assoc]
  · intro c hc
    exact List.mem_takeWhile_imp hc
  · intro c hc
    exact List.mem_takeWhile_imp (List.mem_reverse.mp hc)
  · intro a ha
    have hu : (s.dropWhile rustIsWhitespace).head? = some a := by
      rw [hback]
      simp [ha]
    have hmatch := List.head?_dropWhile_not rustIsWhitespace s
    rw [hu] at hmatch
    exact hmatch
  · intro a ha
    have ha2 : ((s.dropWhile rustIsWhitespace).reverse.dropWhile
        rustIsWhitespace).head? = some a := by
      have := ha
      rw [show rustTrim s =
        ((s.dropWhile rustIsWhitespace).reverse.dropWhile
          rustIsWhitespace).reverse from rfl] at this
      rwa [List.getLast?_reverse] at this
    have hmatch := List.head?_dropWhile_not rustIsWhitespace
      (s.dropWhile rustIsWhitespace).reverse
    rw [ha2] at hmatch
    exact hmatch

/-- Witness for C6's amended statement at a concrete input. -/
theorem trim_strips_exactly_unicode_whitespace_witness :
    ∃ l r, (['\x0C', 'x', ' '] : Str)
        = l ++ process_input ['\x0C', 'x', ' '] none true ++ r ∧
      (∀ c ∈ l, rustIsWhitespace c = true) ∧
      (∀ c ∈ r, rustIsWhitespace c = true) ∧
      (∀ a, (process_input ['\x0C', 'x', ' '] none true).head? = some a →
        rustIsWhitespace a = false) ∧
      (∀ a, (process_input ['\x0C', 'x', ' '] none true).getLast? = some a →
        rustIsWhitespace a = false) :=
  trim_strips_exactly_unicode_whitespace ['\x0C', 'x', ' ']

/-- C3: when `showPrompt` is true and the prompt is non-empty (and writing
and flushing succeed), exactly one text is emitted — `"{prompt} [{d}]:"`
for a present non-empty default `d` and `"{prompt}:"` otherwise — followed
by exactly one flush; when `showPrompt` is false or the prompt is empty,
nothing is written and no flush occurs. -/
theorem prompt_emission_contract (prompt : Str) (dv : Option Str)
    (t : Bool) (env : IOEnv) :
    (env.writeResult = Except.ok () → env.flushResult = Except.ok () →
      prompt ≠ [] →
      (read_input_with_io prompt dv t true env).2.writes =
        [(match dv with
          | some d0 =>
              if d0 ≠ [] then prompt ++ [' ', '['] ++ d0 ++ [']', ':']
              else prompt ++ [':']
          | none => prompt ++ [':'])] ∧
      (read_input_with_io prompt dv t true env).2.flushes = 1) ∧
    (∀ sp : Bool, sp = false ∨ prompt = [] →
      (read_input_with_io prompt dv t sp env).2.writes = [] ∧
      (read_input_with_io prompt dv t sp env).2.flushes = 0) := by
  constructor
  · intro hw hf hp
    have hpe : prompt.isEmpty = false := by
      cases prompt with
      | nil => exact absurd rfl hp
      | cons a l => rfl
    cases dv with
    | none =>
        rcases hr : env.readResult with e | line <;>
          simp [read_input_with_io, hpe, hw, hf, hr, PROMPT_SUFFIX]
    | some d0 =>
        by_cases hd : d0 = []
        · subst hd
          rcases hr : env.readResult with e | line <;>
            simp [read_input_with_io, hpe, hw, hf, hr, PROMPT_SUFFIX]
        · have hde : d0.isEmpty = false := by
            cases d0 with
            | nil => exact absurd rfl hd
            | cons a l => rfl
          rcases hr : env.readResult with e | line <;>
            simp [read_input_with_io, hpe, hw, hf, hr, hde, hd, PROMPT_SUFFIX]
  · rintro sp (rfl | rfl)
    · rcases hr : env.readResult with e | line <;>
        simp [read_input_with_io, hr]
    · rcases hr : env.readResult with e | line <;>
        simp [read_input_with_io, hr]

/-- Witness for C3 at a concrete prompt, default and environment. -/
theorem prompt_emission_contract_witness :
    (read_input_with_io ['P'] (some ['8']) true true
        ⟨Except.ok (), Except.ok (), Except.ok ['h', 'i', '\n']⟩).2.writes
      = [['P', ' ', '[', '8', ']', ':']] ∧
    (read_input_with_io ['P'] (some ['8']) true false
        ⟨Except.ok (), Except.ok (), Except.ok ['h', 'i', '\n']⟩).2.flushes
      = 0 := by
  constructor
  · exact ((prompt_emission_contract ['P'] (some ['8']) true
      ⟨Except.ok (), Except.ok (), Except.ok ['h', 'i', '\n']⟩).1
        rfl rfl (by decide)).1.trans (by decide)
  · exact ((prompt_emission_contract ['P'] (some ['8']) true
      ⟨Except.ok (), Except.ok (), Except.ok ['h', 'i', '\n']⟩).2
        false (Or.inl rfl)).2

/-- C4: a write failure yields `WriteError` with no flush and no read
attempted; a flush failure (after a successful write) yields `FlushError`
with no read attempted; a read failure yields `ReadError`; end-of-stream
(zero bytes, an empty chunk) is not an error — the call returns `Ok` of
post-processing the empty raw line. -/
theorem error_classification (prompt : Str) (dv : Option Str) (t sp : Bool)
    (env : IOEnv) (e : Nat) :
    (prompt ≠ [] → env.writeResult = Except.error e →
      (read_input_with_io prompt dv t true env).1
          = Except.error (InputError.WriteError e) ∧
      (read_input_with_io prompt dv t true env).2.flushes = 0 ∧
      (read_input_with_io prompt dv t true env).2.readAttempted = false) ∧
    (prompt ≠ [] → env.writeResult = Except.ok () →
      env.flushResult = Except.error e →
      (read_input_with_io prompt dv t true env).1
          = Except.error (InputError.FlushError e) ∧
      (read_input_with_io prompt dv t true env).2.readAttempted = false) ∧
    (env.writeResult = Except.ok () → env.flushResult = Except.ok () →
      env.readResult = Except.error e →
      (read_input_with_io prompt dv t sp env).1
          = Except.error (InputError.ReadError e)) ∧
    (env.writeResult = Except.ok () → env.flushResult = Except.ok () →
      env.readResult = Except.ok [] →
      (read_input_with_io prompt dv t sp env).1
          = Except.ok (process_input [] dv t)) := by
  refine ⟨?_, ?_, ?_, ?_⟩
  · intro hp hw
    have hpe : prompt.isEmpty = false := by
      cases prompt with
      | nil => exact absurd rfl hp
      | cons a l => rfl
    simp [read_input_with_io, hpe, hw]
  · intro hp hw hf
    have hpe : prompt.isEmpty = false := by
      cases prompt with
      | nil => exact absurd rfl hp
      | cons a l => rfl
    simp [read_input_with_io, hpe, hw, hf]
  · intro hw hf hr
    by_cases hc : (sp && !prompt.isEmpty) = true <;>
      simp [read_input_with_io, hc, hw, hf, hr]
  · intro hw hf hr
    by_cases hc : (sp && !prompt.isEmpty) = true <;>
      simp [read_input_with_io, hc, hw, hf, hr]

/-- Witness for C4 at concrete environments. -/
theorem error_classification_witness :
    (read_input_with_io ['P'] none true true
        ⟨Except.error 7, Except.ok (), Except.ok []⟩).1
      = Except.error (InputError.WriteError 7) ∧
    (read_input_with_io ['P'] none true true
        ⟨Except.ok (), Except.ok (), Except.ok []⟩).1
      = Except.ok (process_input [] none true) := by
  constructor
  · exact ((error_classification ['P'] none true true
      ⟨Except.error 7, Except.ok (), Except.ok []⟩ 7).1 (by decide) rfl).1
  · exact (error_classification ['P'] none true true
      ⟨Except.ok (), Except.ok (), Except.ok []⟩ 7).2.2.2 rfl rfl rfl

/-- C9: every convenience entry point delegates to the engine with the
stated configuration: `input` uses trim=true, no default, showPrompt iff
the prompt is non-empty; `input_with_default` behaves as the engine with
trim=true, the given default and showPrompt=true always; `input_trim`
defers trimming to the caller; and the builder starts from trim=true,
no default, showPrompt iff the prompt is non-empty. -/
theorem convenience_wrappers_delegate (c d : Str) (t : Bool) (env : IOEnv) :
    input c env = read_input_with_io c none true (!c.isEmpty) env ∧
    input_with_default c d env = read_input_with_io c (some d) true true env ∧
    input_trim c t env = read_input_with_io c none t (!c.isEmpty) env ∧
    Input.new c = ⟨c, none, true, !c.isEmpty⟩ := by
  refine ⟨rfl, ?_, rfl, rfl⟩
  show read_input_with_io c (some d) true (!c.isEmpty) env
      = read_input_with_io c (some d) true true env
  cases c with
  | nil => simp [read_input_with_io]
  | cons a l => rfl
